import Mathlib

/-!
Verification of the joy vector-graphics library (src/joy.py) against its
natural-language specification.  The Python data model and operations are
shallowly embedded below: shapes become an inductive tree, Python dicts
become association lists in insertion order, numbers become rationals or
integers, and the process-wide id counter is threaded explicitly.
-/

namespace Joy

/-- A Python attribute value as stored in `Shape.attrs`: a string, an
integer, or Python's `None` (dropped by `render_tag`).  The claims under
verification only ever render string and integer attribute values. -/
inductive AttrVal where
  | str (s : String)
  | int (i : ℤ)
  | null
deriving DecidableEq, Repr

/-- A Python dict `Dict[str, Attr]` in insertion order (keys unique by
construction, as in a dict). -/
abbrev AttrMap := List (String × AttrVal)

/-- Python `str()` applied to an attribute value, as `render_tag` does. -/
def strOfAttr : AttrVal → String
  | .str s => s
  | .int i => toString i
  | .null => "None"

/-- Python dict assignment `d[k] = v`: overwrite in place (keeping the key's
original position), else append at the end. -/
def dictSet (m : AttrMap) (k : String) (v : AttrVal) : AttrMap :=
  match m with
  | [] => [(k, v)]
  | (k0, v0) :: rest =>
      if k0 = k then (k0, v) :: rest else (k0, v0) :: dictSet rest k v

/-- One character of `html.escape` (quote=True): the five special
characters are replaced, all others kept.  Python performs the five
`str.replace` calls sequentially, which is equivalent to this per-character
map because no replacement output contains a character replaced later. -/
def escChar (c : Char) : String :=
  if c = '&' then "&amp;"
  else if c = '<' then "&lt;"
  else if c = '>' then "&gt;"
  else if c = '"' then "&quot;"
  else if c = Char.ofNat 39 then "&#x27;"
  else String.singleton c

/-- `html.escape(s)` as called from `render_tag`. -/
def escapeHtml (s : String) : String :=
  String.join (s.data.map escChar)

/-- `k.replace("_", "-")` from `render_tag`: for a one-character pattern
Python's `str.replace` is exactly a per-character substitution. -/
def hyphenate (s : String) : String :=
  String.mk (s.data.map (fun c => if c = '_' then '-' else c))

/-- Rendering of a rational that is known to be an integer, matching
Python's `str()` on `int` values.  Every number the verified claims ever
render is an integer; a non-integral rational (which in the source would
be a Python float with a different textual form) is rendered as a
fraction and is never relied upon by any theorem. -/
def qs (q : ℚ) : String :=
  if q.den = 1 then toString q.num
  else toString q.num ++ "/" ++ toString q.den

/-- The `Transformation` hierarchy of joy: `Translate`, `Rotate` (with
anchor point), `Scale`, and `TransformationList` (stored in user-applied
order, possibly nested — the source's `join` does not flatten a list
right operand). -/
inductive TransformE where
  | translate (x y : ℚ)
  | rotate (angle : ℚ) (ax ay : ℚ)
  | scale (sx sy : ℚ)
  | tlist (ts : List TransformE)

/-- `Transformation.join` / `TransformationList.join` with Python dynamic
dispatch: a `TransformationList` receiver splices its own elements and
appends the argument as one element; any other receiver builds a
two-element list.  The right operand is never inspected. -/
def joinE (a b : TransformE) : TransformE :=
  match a with
  | .tlist ts => .tlist (ts ++ [b])
  | _ => .tlist [a, b]

/-- `" ".join(strings)` from Python. -/
def strJoinSp : List String → String
  | [] => ""
  | [x] => x
  | x :: y :: rest => x ++ " " ++ strJoinSp (y :: rest)

mutual

/-- `Transformation.as_str` for each variant.  `Rotate` renders its anchor
only when it differs from the origin (`Point.__eq__` is structural);
`TransformationList` renders its elements reversed and space-joined
(`" ".join(t.as_str() for t in self.transformations[::-1])` — equivalently
the element strings are computed and then reversed). -/
def tAsStr : TransformE → String
  | .translate x y => "translate(" ++ qs x ++ " " ++ qs y ++ ")"
  | .rotate a ax ay =>
      if ax = 0 ∧ ay = 0 then "rotate(" ++ qs a ++ ")"
      else "rotate(" ++ qs a ++ " " ++ qs ax ++ " " ++ qs ay ++ ")"
  | .scale sx sy => "scale(" ++ qs sx ++ " " ++ qs sy ++ ")"
  | .tlist ts => strJoinSp (tAsStrList ts).reverse

/-- Element-wise `as_str` over a stored transformation list. -/
def tAsStrList : List TransformE → List String
  | [] => []
  | t :: ts => tAsStr t :: tAsStrList ts

end

/-- Whether a transformation is the (degenerate but constructible) empty
`TransformationList`. -/
def isEmptyTL : TransformE → Bool
  | .tlist [] => true
  | _ => false

/-- Number of elements a transformation contributes when stored in a
`TransformationList` (a list counts its elements, anything else is one). -/
def tlLen : TransformE → ℕ
  | .tlist ts => ts.length
  | _ => 1

theorem tAsStrList_eq_map (ts : List TransformE) :
    tAsStrList ts = ts.map tAsStr := by
  induction ts with
  | nil => rfl
  | cons t ts ih => simp [tAsStrList, ih]

theorem intercalate_go_append (x : String) (l : List String) :
    ∀ acc s : String,
      String.intercalate.go (x ++ acc) s l = x ++ String.intercalate.go acc s l := by
  induction l with
  | nil => intro acc s; rfl
  | cons a as ih =>
      intro acc s
      show String.intercalate.go (x ++ acc ++ s ++ a) s as = _
      rw [String.append_assoc x acc s, String.append_assoc x (acc ++ s) a,
        ih (acc ++ s ++ a) s]
      rfl

theorem strJoinSp_eq_intercalate (l : List String) :
    strJoinSp l = String.intercalate " " l := by
  induction l with
  | nil => rfl
  | cons x xs ih =>
      cases xs with
      | nil => rfl
      | cons y ys =>
          show x ++ " " ++ strJoinSp (y :: ys) = String.intercalate.go x " " (y :: ys)
          rw [ih]
          show x ++ " " ++ String.intercalate.go y " " ys =
            String.intercalate.go (x ++ " " ++ y) " " ys
          rw [intercalate_go_append (x ++ " ") ys y " "]

theorem strJoinSp_cons (x : String) (l : List String) (h : l ≠ []) :
    strJoinSp (x :: l) = x ++ " " ++ strJoinSp l := by
  cases l with
  | nil => exact absurd rfl h
  | cons y ys => rfl

/-- A `Shape` node of joy: tag, attribute dict, optionally attached
transformation, and optional children list (`None` for leaf shapes;
`Group` always carries a — possibly empty — list). -/
inductive ShapeT where
  | mk (tag : String) (attrs : AttrMap) (transform : Option TransformE)
      (children : Option (List ShapeT))

def ShapeT.tag : ShapeT → String
  | .mk t _ _ _ => t

def ShapeT.attrs : ShapeT → AttrMap
  | .mk _ a _ _ => a

def ShapeT.transform : ShapeT → Option TransformE
  | .mk _ _ tr _ => tr

def ShapeT.children : ShapeT → Option (List ShapeT)
  | .mk _ _ _ c => c

/-- `render_tag(tag, close, **attrs)`: `None`-valued attributes are
dropped, `_` in attribute names becomes `-`, values are HTML-escaped, and
the branch on `if attrs:` tests the dict *before* the `None` filter
(Python truthiness of the dict). -/
def renderTag (tag : String) (close : Bool) (attrs : AttrMap) : String :=
  let tagEnd := if close then " />" else ">"
  if attrs = [] then "<" ++ tag ++ tagEnd
  else
    let items := (attrs.filter (fun kv => kv.2 ≠ AttrVal.null)).map
      (fun kv => hyphenate kv.1 ++ "=" ++ "\"" ++
        escapeHtml (strOfAttr kv.2) ++ "\"")
    "<" ++ tag ++ " " ++ strJoinSp items ++ tagEnd

/-- `Shape.get_attrs`: a copy of the attribute dict with the rendered
transform inserted under the key `transform` when one is attached. -/
def getAttrs (s : ShapeT) : AttrMap :=
  match s.transform with
  | some t => dictSet s.attrs "transform" (.str (tAsStr t))
  | none => s.attrs

mutual

/-- `Shape._svg(indent)`: a node with a *non-empty* children list is an
open tag, the children at one deeper indent, and a close tag; any other
node (children `None` or the empty list — Python `if self.children:`
truthiness) is a single self-closing tag. -/
def svgNode (s : ShapeT) (indent : String) : String :=
  match s with
  | .mk tg attrs tr cs =>
      let eff := getAttrs (.mk tg attrs tr cs)
      match cs with
      | some (c :: rest) =>
          indent ++ renderTag tg false eff ++ "\n" ++
          svgList (c :: rest) (indent ++ "  ") ++
          indent ++ "</" ++ tg ++ ">" ++ "\n"
      | _ => indent ++ renderTag tg true eff ++ "\n"

/-- `"".join(c._svg(indent + "  ") for c in children)`. -/
def svgList (l : List ShapeT) (indent : String) : String :=
  match l with
  | [] => ""
  | c :: cs => svgNode c indent ++ svgList cs indent

end

mutual

/-- Number of nodes carrying a given tag in a shape tree. -/
def countTag (tg : String) (s : ShapeT) : ℕ :=
  match s with
  | .mk t _ _ cs =>
      (if t = tg then 1 else 0) +
      (match cs with
       | some l => countTagList tg l
       | none => 0)

def countTagList (tg : String) (l : List ShapeT) : ℕ :=
  match l with
  | [] => 0
  | c :: cs => countTag tg c + countTagList tg cs

end

/-- `Shape.apply_transform` (via `Transformation.apply`): compose any
existing transform with the new one (existing on the left, dispatching
through `join`) and return a clone carrying the composite; tag, attrs and
children are those of the receiver. -/
def applyTransformE (s : ShapeT) (t : TransformE) : ShapeT :=
  match s with
  | .mk tg attrs tr cs =>
      .mk tg attrs (some (match tr with
        | some t0 => joinE t0 t
        | none => t)) cs

/-- `Group(shapes)`: a `<g>` element with the given children, no extra
attributes, no transform. -/
def groupE (shapes : List ShapeT) : ShapeT :=
  .mk "g" [] none (some shapes)

/-- `Shape.__add__`: `a + b` is `Group([a, b])`. -/
def groupAdd (a b : ShapeT) : ShapeT :=
  groupE [a, b]

/-- The viewBox string of `SVG.render`:
`f"-{width//2} -{height//2} {width} {height}"`, with Python's flooring
integer division `//`. -/
def svgViewBox (w h : ℤ) : String :=
  "-" ++ toString (Int.fdiv w 2) ++ " -" ++ toString (Int.fdiv h 2) ++
  " " ++ toString w ++ " " ++ toString h

/-- `SVG.render`: the fixed root attributes, then the node list wrapped in
one implicit y-flip group `Group(nodes) | Scale(sx=1, sy=-1)`, then the
closing root tag. -/
def svgRender (nodes : List ShapeT) (w h : ℤ) : String :=
  let attrs : AttrMap :=
    [("width", .int w), ("height", .int h),
     ("viewBox", .str (svgViewBox w h)),
     ("fill", .str "none"), ("stroke", .str "black"),
     ("xmlns", .str "http://www.w3.org/2000/svg"),
     ("xmlns:xlink", .str "http://www.w3.org/1999/xlink")]
  let header := renderTag "svg" false attrs ++ "\n"
  let node := applyTransformE (groupE nodes) (.scale 1 (-1))
  header ++ svgNode node "" ++ "</svg>" ++ "\n"

/-- The id string minted for counter value `i`: the generator
`shape_sequence` yields `f"s-{i}"` for `i = 0, 1, 2, ...`. -/
def shapeSeqId (i : ℕ) : String :=
  "s-" ++ toString i

/-- The `use` element built by `Shape.get_reference`:
`Shape("use", **{"xlink:href": "#" + str(self.id)})`. -/
def mkUse (idv : AttrVal) : ShapeT :=
  .mk "use" [("xlink:href", .str ("#" ++ strOfAttr idv))] none none

/-- `Shape.get_reference` with the process-wide counter threaded
explicitly: when the shape's dict has no `id`, the next generated id is
stored into it (in-place in the source; returned as the updated shape
here) and the counter advances.  Returns (updated shape, use node, new
counter). -/
def getReferenceT (s : ShapeT) (counter : ℕ) : ShapeT × ShapeT × ℕ :=
  match s.attrs.lookup "id" with
  | some v => (s, mkUse v, counter)
  | none =>
      let idv : AttrVal := .str (shapeSeqId counter)
      (.mk s.tag (dictSet s.attrs "id" idv) s.transform s.children,
       mkUse idv, counter + 1)

/-- The `Repeat` transformation record; `__init__` stores `n` and the
transformation without any validation of `n`. -/
structure RepeatE where
  n : ℤ
  transformation : TransformE

def repeatInit (n : ℤ) (t : TransformE) : RepeatE :=
  ⟨n, t⟩

/-- `Repeat._apply(shape, tf, n)` under an explicit recursion budget: the
source recurses on `n - 1` until `n == 1`, so for `n ≤ 0` no base case is
ever reached (the Python call never returns); `none` means the budget was
exhausted without reaching the base case. -/
def applyFuel : ℕ → ShapeT → TransformE → ℤ → Option ShapeT
  | 0, _, _, _ => none
  | fuel + 1, s, t, n =>
      if n = 1 then some s
      else (applyFuel fuel s t (n - 1)).map
        (fun r => groupAdd s (applyTransformE r t))

/-- The same recursion restricted to the terminating inputs `n ≥ 1`,
written structurally (the values at `0` and `1` coincide only because the
source never evaluates `_apply` at `n = 0`; see `applyFuel` for the
faithful non-terminating behaviour there). -/
def repeatRec (s : ShapeT) (t : TransformE) : ℕ → ShapeT
  | 0 => s
  | 1 => s
  | k + 2 => groupAdd s (applyTransformE (repeatRec s t (k + 1)) t)

/-- `Repeat.apply(shape)`: obtain the reference node (minting an id on the
target shape if needed), build an *empty* `defs` element — the source line
`self.children = [shape]` assigns the children to the `Repeat`
transformation object itself, not to the `defs` shape, so the `defs` node
keeps `children = None` — and combine `defs` with the recursive expansion.
The recursion budget `n.toNat` suffices for every terminating case
(`n ≥ 1`); see `applyFuel_eval`. -/
def repeatApply (r : RepeatE) (shape : ShapeT) (counter : ℕ) :
    Option ShapeT × ℕ :=
  let res := getReferenceT shape counter
  let defsNode : ShapeT := .mk "defs" [] none none
  ((applyFuel r.n.toNat res.2.1 r.transformation r.n).map
    (fun body => groupAdd defsNode body), res.2.2)

/-- The href every use node of a `Repeat` expansion carries: the shape's
existing `id` attribute if present, else the id minted at the current
counter. -/
def refHref (s : ShapeT) (counter : ℕ) : String :=
  "#" ++ strOfAttr ((s.attrs.lookup "id").getD (.str (shapeSeqId counter)))

mutual

/-- All `use` nodes of a tree in document order, each paired with its
accumulated transform: the transforms attached to its ancestors
(outermost first) followed by its own.  `acc` is the accumulation
inherited from the context. -/
def usesNode (acc : List TransformE) (s : ShapeT) :
    List (String × List TransformE) :=
  match s with
  | .mk tg attrs tr cs =>
      let acc2 := match tr with | some t => acc ++ [t] | none => acc
      (if tg = "use"
       then [(strOfAttr ((attrs.lookup "xlink:href").getD .null), acc2)]
       else []) ++
      (match cs with
       | some l => usesList acc2 l
       | none => [])

def usesList (acc : List TransformE) (l : List ShapeT) :
    List (String × List TransformE) :=
  match l with
  | [] => []
  | c :: cs => usesNode acc c ++ usesList acc cs

end

/-- The `Cycle` transformation record.  `__init__` takes the rotation
count (default 18), anchor (default origin), optional per-step scale
factor, and optional angle defaulting to `360/n`. -/
structure CycleE where
  n : ℕ
  angle : ℚ
  anchor : ℚ × ℚ
  s : Option ℚ

def cycleInit (n : ℕ) (anchor : ℚ × ℚ) (s : Option ℚ) (angle : Option ℚ) :
    CycleE :=
  { n := n, angle := angle.getD (360 / (n : ℚ)), anchor := anchor, s := s }
-- (At n = 0 with no explicit angle, Python's 360/n raises
-- ZeroDivisionError; rational division is total, so everything proved
-- about Cycle is stated for n ≥ 1 where the two agree.)

/-- `Cycle.apply(shape)`: rotate the shape by `i * angle` around the
anchor for `i` in `range(n)`; when a scale factor is given, additionally
scale copy `i` by `s ** i` (with `sy` defaulting to `sx`); group all
copies. -/
def cycleApply (c : CycleE) (shape : ShapeT) : ShapeT :=
  let shapes := (List.range c.n).map
    (fun (i : ℕ) => applyTransformE shape
      (.rotate ((i : ℚ) * c.angle) c.anchor.1 c.anchor.2))
  let shapes2 := match c.s with
    | some sf => shapes.enum.map
        (fun p => applyTransformE p.2 (.scale (sf ^ p.1) (sf ^ p.1)))
    | none => shapes
  groupE shapes2

/-!
A second, heap-based view of `Shape` for the aliasing behaviour of
`Shape.clone`: `clone` copies the instance `__dict__` shallowly, so the
clone holds the *same* attribute-dict object and the *same* children-list
object as the original.  Object identity is modelled by indices into an
explicit store. -/

/-- A `Shape` whose attribute dict and children list are object
references (indices into `StoreH.heap`); `clone`'s shallow `__dict__`
copy duplicates the references, not the objects. -/
structure ShapeH where
  tag : String
  attrsRef : ℕ
  transform : Option TransformE
  childrenRef : Option ℕ

/-- The mutable process state: every live attribute dict, and the
process-wide id counter consumed by `shape_sequence`. -/
structure StoreH where
  heap : List AttrMap
  counter : ℕ

/-- The attribute dict a reference points at. -/
def attrsAt (st : StoreH) (r : ℕ) : AttrMap :=
  st.heap.getD r []

/-- `Shape.clone`: `object.__new__` plus a shallow `__dict__.update`,
i.e. every field — including the dict and list references — is copied
unchanged. -/
def cloneH (s : ShapeH) : ShapeH :=
  { tag := s.tag, attrsRef := s.attrsRef, transform := s.transform,
    childrenRef := s.childrenRef }

/-- `Shape.apply_transform` on the heap view: compose transforms, clone,
set the clone's transform.  The store is untouched (the receiver is not
mutated) and the clone shares the receiver's attrs dict and children
list. -/
def applyTransformH (s : ShapeH) (t : TransformE) : ShapeH :=
  let composed := match s.transform with
    | some t0 => joinE t0 t
    | none => t
  { cloneH s with transform := some composed }

/-- `Shape.get_reference` on the heap view: when the shape's dict lacks
`id`, the minted id is written *into that dict in the store* (visible
through every shape holding the same reference) and the counter advances;
the returned `use` shape's own dict is freshly allocated. -/
def getReferenceH (s : ShapeH) (st : StoreH) : ShapeH × StoreH :=
  let m := attrsAt st s.attrsRef
  match m.lookup "id" with
  | some v =>
      (⟨"use", st.heap.length, none, none⟩,
       ⟨st.heap ++ [[("xlink:href", .str ("#" ++ strOfAttr v))]],
        st.counter⟩)
  | none =>
      let idv : AttrVal := .str (shapeSeqId st.counter)
      let heap2 := st.heap.set s.attrsRef (dictSet m "id" idv)
      (⟨"use", heap2.length, none, none⟩,
       ⟨heap2 ++ [[("xlink:href", .str ("#" ++ strOfAttr idv))]],
        st.counter + 1⟩)

/-!  Concrete inputs used by the theorems below. -/

set_option maxRecDepth 40000

/-- `Circle(radius=50)`: tag `circle` with `cx=0`, `cy=0`, `r=50`. -/
def circle50 : ShapeT :=
  .mk "circle" [("cx", .int 0), ("cy", .int 0), ("r", .int 50)] none none

/-- Whether a transformation is a `TransformationList`. -/
def isList : TransformE → Bool
  | .tlist _ => true
  | _ => false

theorem joinE_of_not_list (a b : TransformE) (h : isList a = false) :
    joinE a b = .tlist [a, b] := by
  cases a with
  | tlist ts => simp [isList] at h
  | translate x y => rfl
  | rotate ang ax ay => rfl
  | scale sx sy => rfl

/-- C9: rendering `Circle(radius=50) | Translate(100, 50)` on the default
300×300 canvas yields exactly the root element with width 300, height
300, `viewBox="-150 -150 300 300"`, `fill="none"`, `stroke="black"`, one
implicit y-flip group `transform="scale(1 -1)"` containing exactly
`<circle cx="0" cy="0" r="50" transform="translate(100 50)" />`; the
viewBox offsets use flooring integer division (witnessed at 301, where
`301 // 2 = 150`). -/
theorem render_circle_translate_end_to_end :
    svgRender [applyTransformE circle50 (.translate 100 50)] 300 300 =
      "<svg width=\"300\" height=\"300\" viewBox=\"-150 -150 300 300\" fill=\"none\" stroke=\"black\" xmlns=\"http://www.w3.org/2000/svg\" xmlns:xlink=\"http://www.w3.org/1999/xlink\">\n<g transform=\"scale(1 -1)\">\n  <circle cx=\"0\" cy=\"0\" r=\"50\" transform=\"translate(100 50)\" />\n</g>\n</svg>\n" ∧
    svgViewBox 301 301 = "-150 -150 301 301" :=
  ⟨rfl, rfl⟩

/-- C10: a `Group` built from an empty shape list serializes as the single
self-closing tag `<g />`; in general the serializer takes the
with-children branch only for a non-empty children list, so an empty list
renders exactly like absent children. -/
theorem empty_group_self_closing :
    (∀ ind : String, svgNode (groupE []) ind = ind ++ "<g />" ++ "\n") ∧
    (∀ (tg : String) (attrs : AttrMap) (tr : Option TransformE)
        (ind : String),
      svgNode (.mk tg attrs tr (some [])) ind =
        svgNode (.mk tg attrs tr none) ind) := by
  constructor
  · intro ind; rfl
  · intro tg attrs tr ind; rfl

/-- C3 counterexample: with the left operand the (constructible) empty
`TransformationList`, `A join B` renders as just `B`'s string — `" ".join`
over one element emits no separator — not as `B ++ " " ++ A`; so the
claim's universal statement fails at `A = TransformationList([])`,
`B = Scale(2, 2)`. -/
theorem join_render_empty_left_counterexample :
    ¬ (tAsStr (joinE (.tlist []) (.scale 2 2)) =
        tAsStr (.scale 2 2) ++ " " ++ tAsStr (.tlist [])) := by
  decide

/-- C3 (amended): for every `A` that is not an empty `TransformationList`,
`A join B` renders as `B`'s string, one space, `A`'s string; and a
`TransformationList` always renders its elements' strings in reverse of
the stored order, joined by single spaces. -/
theorem join_render_reversed :
    (∀ a b : TransformE, isEmptyTL a = false →
      tAsStr (joinE a b) = tAsStr b ++ " " ++ tAsStr a) ∧
    (∀ ts : List TransformE,
      tAsStr (.tlist ts) = String.intercalate " " ((ts.map tAsStr).reverse)) := by
  constructor
  · intro a b ha
    cases a with
    | translate x y => rfl
    | rotate ang ax ay => rfl
    | scale sx sy => rfl
    | tlist ts =>
        cases ts with
        | nil => simp [isEmptyTL] at ha
        | cons t ts2 =>
            show strJoinSp (tAsStrList ((t :: ts2) ++ [b])).reverse = _
            have h1 : tAsStrList ((t :: ts2) ++ [b]) =
                tAsStrList (t :: ts2) ++ [tAsStr b] := by
              rw [tAsStrList_eq_map, tAsStrList_eq_map, List.map_append]
              rfl
            rw [h1, List.reverse_append]
            have h2 : (tAsStrList (t :: ts2)).reverse ≠ [] := by
              simp [tAsStrList]
            rw [List.reverse_singleton, List.singleton_append,
              strJoinSp_cons _ _ h2]
            rfl
  · intro ts
    show strJoinSp (tAsStrList ts).reverse = _
    rw [tAsStrList_eq_map, strJoinSp_eq_intercalate]

/-- Witness for the amended C3 at `A = Rotate(45)`, `B = Scale(2, 2)`. -/
theorem join_render_reversed_witness :
    tAsStr (joinE (.rotate 45 0 0) (.scale 2 2)) =
      tAsStr (.scale 2 2) ++ " " ++ tAsStr (.rotate 45 0 0) :=
  join_render_reversed.1 (.rotate 45 0 0) (.scale 2 2) (by decide)

/-- C6 counterexample: `join` does not splice a `TransformationList`
right operand — `Rotate(10) join (Scale(2,2) join Translate(1,2))` stores
two elements, the second being a nested list, not the flat three-element
sequence — and the stored sequences of the two associations differ. -/
theorem join_right_list_not_spliced_counterexample :
    joinE (.rotate 10 0 0) (joinE (.scale 2 2) (.translate 1 2)) ≠
      .tlist [.rotate 10 0 0, .scale 2 2, .translate 1 2] ∧
    joinE (joinE (.rotate 10 0 0) (.scale 2 2)) (.translate 1 2) ≠
      joinE (.rotate 10 0 0) (joinE (.scale 2 2) (.translate 1 2)) := by
  constructor
  · intro h
    have h2 := congrArg tlLen h
    simp [joinE, tlLen] at h2
  · intro h
    have h2 := congrArg tlLen h
    simp [joinE, tlLen] at h2

/-- C6 (amended): `join` splices the elements of a *left*
`TransformationList` operand but appends a `TransformationList` right
operand as a single nested element, so the stored sequences of the two
associations differ — although their rendered transform strings
coincide. -/
theorem join_flattens_left_only :
    ∀ a b c : TransformE, isList a = false → isList b = false →
      joinE (joinE a b) c = .tlist [a, b, c] ∧
      joinE a (joinE b c) = .tlist [a, .tlist [b, c]] ∧
      tAsStr (joinE (joinE a b) c) = tAsStr (joinE a (joinE b c)) := by
  intro a b c ha hb
  rw [joinE_of_not_list a b ha, joinE_of_not_list b c hb,
    joinE_of_not_list a (.tlist [b, c]) ha]
  refine ⟨by simp [joinE], rfl, ?_⟩
  show strJoinSp (tAsStrList ([a, b] ++ [c])).reverse =
    strJoinSp (tAsStrList [a, .tlist [b, c]]).reverse
  simp only [tAsStrList, tAsStr, List.cons_append, List.nil_append,
    List.reverse_cons, List.reverse_nil, strJoinSp]
  simp [strJoinSp, String.append_assoc]

/-- Witness for the amended C6 at `Rotate(10)`, `Scale(2,2)`,
`Translate(1,2)`. -/
theorem join_flattens_left_only_witness :
    joinE (joinE (.rotate 10 0 0) (.scale 2 2)) (.translate 1 2) =
      .tlist [.rotate 10 0 0, .scale 2 2, .translate 1 2] :=
  (join_flattens_left_only (.rotate 10 0 0) (.scale 2 2) (.translate 1 2)
    (by decide) (by decide)).1

/-- Occurrences of `-` in a string. -/
def dashCount (s : String) : ℕ :=
  s.data.count '-'

theorem dashCount_append (a b : String) :
    dashCount (a ++ b) = dashCount a + dashCount b := by
  simp [dashCount, String.data_append, List.count_append]

/-- C7 (code bug): the first identifier the registry mints is `"s-0"` —
`shape_sequence` yields `f"s-{i}"` with *no* randomized suffix — so no
minted id has the claimed form `s-<n>-<suffix>` (the repository's own
test fixture resets a `joy.ID_SUFFIX` that `src/joy.py` never defines or
uses). -/
theorem minted_id_lacks_suffix :
    shapeSeqId 0 = "s-0" ∧
    (getReferenceT circle50 0).1.attrs.lookup "id" = some (.str "s-0") ∧
    (getReferenceT circle50 0).2.1 = mkUse (.str "s-0") ∧
    ¬ ∃ (n : ℕ) (suf : String),
        shapeSeqId 0 = "s-" ++ toString n ++ "-" ++ suf := by
  refine ⟨rfl, rfl, rfl, ?_⟩
  rintro ⟨n, suf, h⟩
  have h2 : dashCount (shapeSeqId 0) =
      dashCount ("s-" ++ toString n ++ "-" ++ suf) := by rw [h]
  rw [dashCount_append, dashCount_append, dashCount_append] at h2
  have h3 : dashCount (shapeSeqId 0) = 1 := by decide
  have h4 : dashCount "s-" = 1 := by decide
  have h5 : dashCount "-" = 1 := by decide
  omega

/-- A one-shape store: a circle whose attribute dict (heap cell 0) has no
`id` yet; the process counter is at 0. -/
def demoStoreH : StoreH :=
  ⟨[[("cx", .int 0), ("cy", .int 0), ("r", .int 50)]], 0⟩

/-- The circle of `demoStoreH`. -/
def demoShapeH : ShapeH :=
  ⟨"circle", 0, none, none⟩

theorem lookup_dictSet_self (m : AttrMap) (k : String) (v : AttrVal) :
    (dictSet m k v).lookup k = some v := by
  induction m with
  | nil => simp [dictSet]
  | cons kv rest ih =>
      by_cases h : kv.1 = k
      · simp [dictSet, h]
      · have hbeq : (k == kv.1) = false :=
          beq_eq_false_iff_ne.mpr (fun hh => h hh.symm)
        simp [dictSet, h, List.lookup, hbeq, ih]

/-- C5 counterexample: after `s' = s.apply_transform(t)` the two shapes
hold the *same* attribute dict (`clone` copies `__dict__` shallowly), so
the id minted by `get_reference` on the clone appears in the original
`s`'s attributes as well — refuting the claim that the clone carries its
own copy of the attribute map. -/
theorem clone_attrs_aliased_counterexample :
    ¬ ((attrsAt ((getReferenceH (applyTransformH demoShapeH (.translate 100 0))
          demoStoreH).2) demoShapeH.attrsRef).lookup "id" = none) := by
  decide

/-- C5 (amended): `apply_transform` returns a new shape with the same
tag that shares both the receiver's children list and its attribute
dict; consequently an id minted by `get_reference` through the clone is
stored in the shared dict and is visible through the original shape
too. -/
theorem clone_shares_attrs_and_children :
    ∀ (s : ShapeH) (t : TransformE),
      (applyTransformH s t).attrsRef = s.attrsRef ∧
      (applyTransformH s t).childrenRef = s.childrenRef ∧
      (applyTransformH s t).tag = s.tag ∧
      ∀ st : StoreH, s.attrsRef < st.heap.length →
        (attrsAt st s.attrsRef).lookup "id" = none →
        (attrsAt ((getReferenceH (applyTransformH s t) st).2)
            s.attrsRef).lookup "id" = some (.str (shapeSeqId st.counter)) := by
  intro s t
  refine ⟨rfl, rfl, rfl, ?_⟩
  intro st hlt hnone
  have href : (applyTransformH s t).attrsRef = s.attrsRef := rfl
  simp only [attrsAt] at hnone
  simp only [getReferenceH, href, attrsAt, hnone]
  have hlen : s.attrsRef < (st.heap.set s.attrsRef
      (dictSet (st.heap.getD s.attrsRef []) "id"
        (AttrVal.str (shapeSeqId st.counter)))).length := by
    simpa using hlt
  rw [List.getD_eq_getElem?_getD, List.getElem?_append_left hlen,
    List.getElem?_set_eq_of_lt _ hlt]
  simp [lookup_dictSet_self]

/-- Witness for the amended C5 at the demo circle and store. -/
theorem clone_shares_attrs_and_children_witness :
    (attrsAt ((getReferenceH (applyTransformH demoShapeH (.translate 100 0))
        demoStoreH).2) demoShapeH.attrsRef).lookup "id" =
      some (.str (shapeSeqId 0)) :=
  (clone_shares_attrs_and_children demoShapeH (.translate 100 0)).2.2.2
    demoStoreH (by decide) (by decide)

theorem applyFuel_nonpos (fuel : ℕ) :
    ∀ (n : ℤ), n ≤ 0 → ∀ (s : ShapeT) (t : TransformE),
      applyFuel fuel s t n = none := by
  induction fuel with
  | zero => intro n hn s t; rfl
  | succ f ih =>
      intro n hn s t
      have h1 : ¬ (n = 1) := by omega
      simp [applyFuel, h1, ih (n - 1) (by omega)]

/-- C4 counterexample: `Repeat._apply` at `n = 0` *does* recurse — even a
recursion budget of 100 is exhausted without producing a result (compare
`n = 1`, which returns at once with budget 1) — refuting the claim that a
non-positive count is rejected before the expansion recurses. -/
theorem repeat_nonpositive_counterexample :
    applyFuel 1 (mkUse (.str "s-0")) (.translate 100 0) 0 = none ∧
    applyFuel 1 (mkUse (.str "s-0")) (.translate 100 0) 1 =
      some (mkUse (.str "s-0")) ∧
    applyFuel 100 (mkUse (.str "s-0")) (.translate 100 0) 0 = none :=
  ⟨rfl, rfl, rfl⟩

/-- C4 (amended): `Repeat.__init__` stores any `n` without validation,
and for `n ≤ 0` the recursive expansion never reaches its base case: it
yields no result under any recursion budget (the Python call never
returns). -/
theorem repeat_nonpositive_diverges :
    ∀ (n : ℤ) (t : TransformE), n ≤ 0 →
      (repeatInit n t).n = n ∧
      ∀ (fuel : ℕ) (s : ShapeT), applyFuel fuel s t n = none := by
  intro n t hn
  exact ⟨rfl, fun fuel s => applyFuel_nonpos fuel n hn s t⟩

/-- Witness for the amended C4 at `n = -3`. -/
theorem repeat_nonpositive_diverges_witness :
    (repeatInit (-3) (.translate 100 0)).n = -3 ∧
    applyFuel 7 circle50 (.translate 100 0) (-3) = none :=
  ⟨(repeat_nonpositive_diverges (-3) (.translate 100 0) (by decide)).1,
   (repeat_nonpositive_diverges (-3) (.translate 100 0) (by decide)).2
     7 circle50⟩

/-- The tree `Circle(radius=50) | Repeat(2, Translate(100, 0))` actually
produces: a group of the *empty* `<defs />` element and the two use
nodes. -/
def repeatDemoOut : ShapeT :=
  groupAdd (.mk "defs" [] none none)
    (groupAdd (mkUse (.str "s-0"))
      (applyTransformE (mkUse (.str "s-0")) (.translate 100 0)))

/-- C1 (code bug): applying `Repeat(2, Translate(100, 0))` to
`Circle(radius=50)` yields a tree whose single `defs` element is *empty*
(`children = None`) and in which the circle's subtree occurs zero times —
the source line `self.children = [shape]` stores the shape on the
`Repeat` transformation object instead of on the `defs` node, so the
definition the `use` nodes reference is never emitted. -/
theorem repeat_defs_emitted_empty :
    (repeatApply (repeatInit 2 (.translate 100 0)) circle50 0).1 =
      some repeatDemoOut ∧
    repeatDemoOut =
      .mk "g" [] none (some
        [.mk "defs" [] none none,
         .mk "g" [] none (some
           [.mk "use" [("xlink:href", .str "#s-0")] none none,
            .mk "use" [("xlink:href", .str "#s-0")]
              (some (.translate 100 0)) none])]) ∧
    countTag "defs" repeatDemoOut = 1 ∧
    countTag "circle" repeatDemoOut = 0 :=
  ⟨rfl, rfl, rfl, rfl⟩

theorem applyFuel_eval (f : ℕ) :
    ∀ (n : ℕ), 1 ≤ n → n ≤ f → ∀ (s : ShapeT) (t : TransformE),
      applyFuel f s t (n : ℤ) = some (repeatRec s t n) := by
  induction f with
  | zero => intro n h1 h2; omega
  | succ f ih =>
      intro n h1 h2 s t
      by_cases he : n = 1
      · subst he; rfl
      · have h3 : 2 ≤ n := by omega
        obtain ⟨k, rfl⟩ : ∃ k, n = k + 2 := ⟨n - 2, by omega⟩
        have hne : ¬ ((k + 2 : ℕ) : ℤ) = 1 := by omega
        have hcast : ((k + 2 : ℕ) : ℤ) - 1 = ((k + 1 : ℕ) : ℤ) := by
          push_cast; ring
        rw [applyFuel, if_neg hne, hcast, ih (k + 1) (by omega) (by omega)]
        rfl

theorem repeatRec_transform_none (v : AttrVal) (t : TransformE) :
    ∀ (n : ℕ), (repeatRec (mkUse v) t n).transform = none := by
  intro n
  match n with
  | 0 => rfl
  | 1 => rfl
  | k + 2 => rfl

theorem usesNode_applyTransform (acc : List TransformE) (x : ShapeT)
    (t : TransformE) (hx : x.transform = none) :
    usesNode acc (applyTransformE x t) = usesNode (acc ++ [t]) x := by
  cases x with
  | mk tg attrs tr cs =>
      cases tr with
      | some t0 => simp [ShapeT.transform] at hx
      | none => rfl

theorem usesNode_repeatRec (v : AttrVal) (t : TransformE) :
    ∀ (n : ℕ), 1 ≤ n → ∀ (acc : List TransformE),
      usesNode acc (repeatRec (mkUse v) t n) =
        (List.range n).map
          (fun i => ("#" ++ strOfAttr v, acc ++ List.replicate i t)) := by
  intro n hn
  induction n, hn using Nat.le_induction with
  | base =>
      intro acc
      simp [repeatRec, usesNode, mkUse, List.range_succ, List.lookup,
        strOfAttr]
  | succ n hn ih =>
      intro acc
      obtain ⟨k, rfl⟩ : ∃ k, n = k + 1 := ⟨n - 1, by omega⟩
      show usesNode acc (repeatRec (mkUse v) t (k + 2)) = _
      rw [repeatRec]
      have hstep : usesNode acc (groupAdd (mkUse v)
          (applyTransformE (repeatRec (mkUse v) t (k + 1)) t)) =
          usesNode acc (mkUse v) ++
          usesNode acc (applyTransformE (repeatRec (mkUse v) t (k + 1)) t) := by
        simp [groupAdd, groupE, usesNode, usesList]
      rw [hstep,
        usesNode_applyTransform acc _ t (repeatRec_transform_none v t (k + 1)),
        ih (acc ++ [t])]
      have hbase : usesNode acc (mkUse v) =
          [("#" ++ strOfAttr v, acc)] := by
        simp [mkUse, usesNode, List.lookup, strOfAttr]
      rw [hbase]
      rw [List.range_succ_eq_map (k + 1)]
      simp [List.map_map, Function.comp, List.replicate_succ,
        List.append_assoc]

/-- C2: for every `n ≥ 1`, shape and transformation, the `Repeat`
expansion contains exactly `n` use nodes, in document order, all
referencing the shape's single definition id, and the accumulated
transform of the `i`-th use node (its ancestors' transforms followed by
its own) is exactly `i` copies of the repeated transformation, for
`i = 0, 1, ..., n − 1`. -/
theorem repeat_use_nodes_accumulate :
    ∀ (n : ℕ), 1 ≤ n → ∀ (s : ShapeT) (t : TransformE) (c : ℕ),
      ∃ tree, (repeatApply (repeatInit (n : ℤ) t) s c).1 = some tree ∧
        usesNode [] tree =
          (List.range n).map
            (fun i => (refHref s c, List.replicate i t)) := by
  intro n hn s t c
  have hv : (getReferenceT s c).2.1 =
      mkUse ((s.attrs.lookup "id").getD (.str (shapeSeqId c))) := by
    unfold getReferenceT
    cases hcase : s.attrs.lookup "id" with
    | some v => simp [hcase]
    | none => simp [hcase]
  refine ⟨groupAdd (.mk "defs" [] none none)
    (repeatRec (mkUse ((s.attrs.lookup "id").getD (.str (shapeSeqId c)))) t n),
    ?_, ?_⟩
  · show ((applyFuel ((n : ℤ)).toNat (getReferenceT s c).2.1 t (n : ℤ)).map
        (fun body => groupAdd (.mk "defs" [] none none) body), _).1 = _
    rw [hv, Int.toNat_natCast, applyFuel_eval n n hn (le_refl n)]
    rfl
  · have hsplit : usesNode []
        (groupAdd (.mk "defs" [] none none)
          (repeatRec (mkUse ((s.attrs.lookup "id").getD
            (.str (shapeSeqId c)))) t n)) =
        usesNode [] (.mk "defs" [] none none) ++
        usesNode [] (repeatRec (mkUse ((s.attrs.lookup "id").getD
          (.str (shapeSeqId c)))) t n) := by
      simp [groupAdd, groupE, usesNode, usesList]
    rw [hsplit, usesNode_repeatRec _ t n hn []]
    simp [usesNode, refHref]

/-- Witness for C2 at `n = 3`, the demo circle, `Translate(100, 0)`. -/
theorem repeat_use_nodes_accumulate_witness :
    ∃ tree,
      (repeatApply (repeatInit ((3 : ℕ) : ℤ) (.translate 100 0))
        circle50 0).1 = some tree ∧
      usesNode [] tree =
        (List.range 3).map
          (fun i => (refHref circle50 0,
            List.replicate i (.translate 100 0))) :=
  repeat_use_nodes_accumulate 3 (by decide) circle50 (.translate 100 0) 0

theorem countTag_applyTransform (tg : String) (x : ShapeT) (t : TransformE) :
    countTag tg (applyTransformE x t) = countTag tg x := by
  cases x with
  | mk tg2 attrs tr cs => rfl

theorem countTagList_map_const {α : Type} (tg : String) (f : α → ShapeT)
    (m : ℕ) (hf : ∀ a, countTag tg (f a) = m) :
    ∀ l : List α, countTagList tg (l.map f) = l.length * m := by
  intro l
  induction l with
  | nil => simp [countTagList]
  | cons a rest ih =>
      simp [countTagList, hf a, ih, Nat.succ_mul, Nat.add_comm]

/-- C8: `Cycle(n, anchor, s, angle)` applied to a shape returns one plain
group of exactly `n` full copies in increasing `i` order, copy `i` being
the shape rotated by `i * angle` around the anchor (`angle` defaulting to
`360/n`), with — when a scale factor `s` is given — an additional
`s^i` scaling applied on top of the already-rotated copy; no
definitions or reference nodes are introduced (`defs`/`use` counts are
exactly `n` times those already inside the shape). -/
theorem cycle_direct_expansion :
    ∀ (sh : ShapeT) (n : ℕ), 1 ≤ n → ∀ (ax ay : ℚ) (sf ang : Option ℚ),
      cycleApply (cycleInit n (ax, ay) sf ang) sh =
        groupE ((List.range n).map (fun (i : ℕ) =>
          match sf with
          | some s => applyTransformE
              (applyTransformE sh
                (.rotate ((i : ℚ) * (ang.getD (360 / (n : ℚ)))) ax ay))
              (.scale (s ^ i) (s ^ i))
          | none => applyTransformE sh
              (.rotate ((i : ℚ) * (ang.getD (360 / (n : ℚ)))) ax ay))) ∧
      countTag "defs" (cycleApply (cycleInit n (ax, ay) sf ang) sh) =
        n * countTag "defs" sh ∧
      countTag "use" (cycleApply (cycleInit n (ax, ay) sf ang) sh) =
        n * countTag "use" sh := by
  intro sh n _hn ax ay sf ang
  cases sf with
  | none =>
      have hmain : cycleApply (cycleInit n (ax, ay) none ang) sh =
          groupE ((List.range n).map (fun (i : ℕ) =>
            applyTransformE sh
              (.rotate ((i : ℚ) * (ang.getD (360 / (n : ℚ)))) ax ay))) := by
        simp [cycleApply, cycleInit]
      refine ⟨hmain, ?_, ?_⟩
      all_goals
        rw [hmain]
        simp only [groupE, countTag]
        rw [countTagList_map_const _ _ (countTag _ sh)
          (fun i => countTag_applyTransform _ sh _) (List.range n)]
        simp
  | some s =>
      have hmain : cycleApply (cycleInit n (ax, ay) (some s) ang) sh =
          groupE ((List.range n).map (fun (i : ℕ) =>
            applyTransformE
              (applyTransformE sh
                (.rotate ((i : ℚ) * (ang.getD (360 / (n : ℚ)))) ax ay))
              (.scale (s ^ i) (s ^ i)))) := by
        simp only [cycleApply, cycleInit]
        refine congrArg groupE ?_
        apply List.ext_getElem
        · simp
        · intro i h1 h2
          simp [List.getElem_map, List.getElem_enum, List.getElem_range]
      refine ⟨hmain, ?_, ?_⟩
      all_goals
        rw [hmain]
        simp only [groupE, countTag]
        rw [countTagList_map_const _ _ (countTag _ sh)
          (fun i => by
            rw [countTag_applyTransform, countTag_applyTransform])
          (List.range n)]
        simp

/-- Witness for C8: `Cycle(n=4)` with all defaults applied to the demo
circle — four copies rotated by 0°, 90°, 180°, 270°. -/
theorem cycle_direct_expansion_witness :
    cycleApply (cycleInit 4 (0, 0) none none) circle50 =
      groupE ((List.range 4).map (fun (i : ℕ) =>
        applyTransformE circle50
          (.rotate ((i : ℚ) * ((none : Option ℚ).getD (360 / (4 : ℚ)))) 0 0))) :=
  (cycle_direct_expansion circle50 4 (by decide) 0 0 none none).1

end Joy
